import Mathlib

/-!
Verification of the route-processing engine of the gpx-compare repository.

The engine lives in `route.py` (class `Route`): loading the first
track/segment of a GPX file, deriving a per-point metrics table
(pairwise 2D/3D distances, cumulative distances, elevation diffs, slope
gradients and slope buckets), and aggregate statistics
(`total_distance`, `elevation_gain` / `elevation_loss` via gpxpy,
`avg_elevation_gain_per_km`, `center_coordinates`).  The caller
(`app.py`) consumes `RouteGroup.calculate_routes_distance` against the
50 km threshold.

Numbers are modelled as exact rationals (ℚ).  The IEEE behaviours the
code relies on are modelled explicitly where they matter: division of a
float column by zero (NaN / ±inf, type `FVal` below), `pd.cut` returning
a missing value outside the bin range, and `fillna` replacing only NaN.
The geodesic distance function of gpxpy (`gpxpy.geo.distance`) involves
`cos` and `sqrt`, so it is kept as an explicit parameter `gd : GeoDist`
of every computation that uses it; concrete rational stand-ins are used
to evaluate witnesses.
-/

/- Batteries marks the `Rat` field operations `@[irreducible]`; re-allow
unfolding so concrete rational computations evaluate under `decide`. -/
attribute [local semireducible] Rat.add Rat.mul Rat.inv Rat.sub Rat.ofScientific

/-- A GPX track point: `point.latitude`, `point.longitude`,
`point.elevation`.  gpxpy yields `None` (`none`) when the `<ele>` tag is
absent. -/
structure GpxPoint where
  latitude : ℚ
  longitude : ℚ
  elevation : Option ℚ
deriving DecidableEq

/-- A GPX track segment (`gpxpy.gpx.GPXTrackSegment`): a list of points. -/
structure GpxSegment where
  points : List GpxPoint
deriving DecidableEq

/-- A GPX track (`gpxpy.gpx.GPXTrack`): a list of segments. -/
structure GpxTrack where
  segments : List GpxSegment
deriving DecidableEq

/-- A parsed GPX file (`gpxpy.gpx.GPX`): a list of tracks. -/
structure GpxFile where
  tracks : List GpxTrack
deriving DecidableEq

/-- The type of `gpxpy.geo.distance(lat1, lon1, ele1, lat2, lon2, ele2)`.
The real function mixes a flat-earth approximation (longitude difference
scaled by `cos(radians(latitude_1))`) with haversine for distant points;
both involve irrational functions, so computations are parametric in it. -/
abbrev GeoDist := ℚ → ℚ → Option ℚ → ℚ → ℚ → Option ℚ → ℚ

/-- Model of `Route._load_gpx`: `self.track = self.gpx_file.tracks[0]`,
`self.segment = self.track.segments[0]`, `self.points =
self.segment.points`.  Indexing an empty list raises `IndexError`,
modelled as `none`.  The extracted coordinates keep each point's
latitude, longitude and (possibly missing) elevation unchanged. -/
def load_gpx (g : GpxFile) : Option (List GpxPoint) :=
  match g.tracks with
  | [] => none
  | t :: _ =>
    match t.segments with
    | [] => none
    | s :: _ => some s.points

/-- One elementwise step of `np.diff` on the object-dtype elevation
column: `b - a` when both elevations are present; `None - float` (or
`float - None`) raises `TypeError`, modelled as `none`. -/
def optSub (a b : Option ℚ) : Option ℚ :=
  match a, b with
  | some x, some y => some (y - x)
  | _, _ => none

/-- Model of `np.diff(x['elevation'])`.  When a point has no elevation the
coordinates array has object dtype, and the first subtraction touching
the `None` raises `TypeError`; the whole column computation fails. -/
def optDiffs : List (Option ℚ) → Option (List ℚ)
  | a :: b :: rest => do
    let d ← optSub a b
    let ds ← optDiffs (b :: rest)
    pure (d :: ds)
  | _ => some []

/-- The per-pair 3D distances (`self.distance_between_points_3d[i] =
gpxpy.geo.distance(lat_i, lon_i, ele_i, lat_{i+1}, lon_{i+1},
ele_{i+1})`), for consecutive pairs in order. -/
def dist3List (gd : GeoDist) (cs : List GpxPoint) : List ℚ :=
  (cs.zip cs.tail).map fun p =>
    gd p.1.latitude p.1.longitude p.1.elevation p.2.latitude p.2.longitude p.2.elevation

/-- The per-pair 2D distances: same call with both elevations set to 0. -/
def dist2List (gd : GeoDist) (cs : List GpxPoint) : List ℚ :=
  (cs.zip cs.tail).map fun p =>
    gd p.1.latitude p.1.longitude (some 0) p.2.latitude p.2.longitude (some 0)

/-- Running sums with accumulator, for `np.cumsum`. -/
def cumsumFrom (acc : ℚ) : List ℚ → List ℚ
  | [] => []
  | x :: xs => (acc + x) :: cumsumFrom (acc + x) xs

/-- Model of `np.cumsum`. -/
def cumsum (l : List ℚ) : List ℚ := cumsumFrom 0 l

/-- Model of `np.arange(start, stop, step)`: `start + k*step` for
`k = 0, …, ⌈(stop−start)/step⌉ − 1` (numpy's documented length). -/
def arangeQ (start stop step : ℚ) : List ℚ :=
  (List.range (Int.toNat ⌈(stop - start) / step⌉)).map fun k => start + (k : ℚ) * step

/-- Model of `.round(2)` on a bin edge.  (On the edges produced by
`np.arange(-1, 1, 0.1)` the rounded doubles are exactly the two-decimal
values `-1.0, -0.9, …, 0.9`, which the rational `arangeQ` produces
directly, so this is the identity on `slope_bins`.) -/
def round2 (q : ℚ) : ℚ := (round (q * 100) : ℚ) / 100

/-- Model of `self.slope_bins = np.arange(-1, 1, 0.1).round(2)`: twenty edges
`-1.0, -0.9, …, 0.9` (the stop value 1.0 is excluded by `arange`). -/
def slope_bins : List ℚ := (arangeQ (-1) 1 (1/10)).map round2

/-- One slope-bin label, `f"{round(100*lower)} → {round(100*upper)}%"`. -/
def pctLabel (l u : ℚ) : String :=
  toString (round (100 * l)) ++ " → " ++ toString (round (100 * u)) ++ "%"

/-- Model of `self.slope_bin_labels`: one label per consecutive pair of bin edges. -/
def slope_bin_labels : List String :=
  (slope_bins.zip slope_bins.tail).map fun p => pctLabel p.1 p.2

/-- Model of `pd.cut(v, bins, right=False, labels)` on a single finite value:
the label of the first (equivalently, with increasing edges, the unique)
half-open bin `[l, u)` containing `v`; missing (`none`) when `v` lies
outside every bin. -/
def cutLabel : List ℚ → List String → ℚ → Option String
  | l :: u :: bs, lab :: labs, v =>
    if l ≤ v ∧ v < u then some lab else cutLabel (u :: bs) labs v
  | _, _, _ => none

/-- A double as produced by the slope-gradient column: finite, ±inf, or
NaN. -/
inductive FVal where
  | fin (q : ℚ)
  | pinf
  | ninf
  | nan
deriving DecidableEq

/-- IEEE division of the float columns (`elevation_diff /
distance_between_points_2d`): `0/0 = NaN`, `±x/0 = ±inf`, otherwise
finite. -/
def fdivQ (a b : ℚ) : FVal :=
  if b = 0 then
    if a = 0 then FVal.nan else if 0 < a then FVal.pinf else FVal.ninf
  else FVal.fin (a / b)

/-- Model of `x['slope_gradient'] + 0.0001`: adding the epsilon leaves NaN and
±inf unchanged. -/
def addEps (v : FVal) : FVal :=
  match v with
  | FVal.fin q => FVal.fin (q + 1/10000)
  | v => v

/-- Behaviour of `pd.cut` on a float value: NaN and ±inf fall outside every bin. -/
def cutF (v : FVal) : Option String :=
  match v with
  | FVal.fin q => cutLabel slope_bins slope_bin_labels q
  | _ => none

/-- Model of `.fillna({'slope_gradient': 0})`: replaces NaN (and only NaN — the
infinities produced by division by zero are not NA) by 0. -/
def fillGrad (v : FVal) : FVal :=
  match v with
  | FVal.nan => FVal.fin 0
  | v => v

/-- Model of `abs(x['slope_gradient']) > threshold` on a float: `abs(NaN) > t` is
false, `abs(±inf) > t` is true. -/
def absGtF (v : FVal) (t : ℚ) : Bool :=
  match v with
  | FVal.fin q => decide (t < |q|)
  | FVal.pinf => true
  | FVal.ninf => true
  | FVal.nan => false

/-- The constant `Route.HARD_SLOPE_THRESHOLD = 0.2`. -/
def HARD_SLOPE_THRESHOLD : ℚ := 1/5

/-- The slope-bin column entry for a raw (pre-`fillna`) gradient value:
`pd.cut(gradient + 0.0001, slope_bins, right=False, labels)` followed by
`.fillna({'slope_bin': '0 → 10%'})`. -/
def slopeBinLabel (raw : FVal) : String :=
  (cutF (addEps raw)).getD "0 → 10%"

/-- One row of `self.df` after `_process_data`. -/
structure MetricsRow where
  latitude : ℚ
  longitude : ℚ
  elevation : Option ℚ
  elevation_diff : ℚ
  distance_between_points_3d : ℚ
  distance_between_points_2d : ℚ
  cum_distance_3d_km : ℚ
  cum_distance_2d_km : ℚ
  slope_gradient : FVal
  slope_bin : String
  hard_slope : Bool
deriving DecidableEq

/-- Assemble one row of the dataframe.  `slope_gradient` is the IEEE
quotient with NaN filled to 0; `slope_bin` and `hard_slope` are computed
from the raw (pre-`fillna`) quotient, exactly as the `assign` chain does. -/
def mkMetricsRow (c : GpxPoint) (ediff d3 d2 cum3 cum2 : ℚ) : MetricsRow :=
  let rawGrad := fdivQ ediff d2
  { latitude := c.latitude
    longitude := c.longitude
    elevation := c.elevation
    elevation_diff := ediff
    distance_between_points_3d := d3
    distance_between_points_2d := d2
    cum_distance_3d_km := cum3
    cum_distance_2d_km := cum2
    slope_gradient := fillGrad rawGrad
    slope_bin := slopeBinLabel rawGrad
    hard_slope := absGtF rawGrad HARD_SLOPE_THRESHOLD }

/-- Zip the dataframe columns back into rows. -/
def buildRows : List GpxPoint → List ℚ → List ℚ → List ℚ → List ℚ → List ℚ → List MetricsRow
  | c :: cs, e :: es, a :: as3, b :: bs, x :: xs, y :: ys =>
    mkMetricsRow c e a b x y :: buildRows cs es as3 bs xs ys
  | _, _, _, _, _, _ => []

/-- Model of `Route._process_data`.  Here `none` models a raised exception: building
the dataframe from an empty coordinates array raises `ValueError`
(shape mismatch), and `np.diff` over a column containing a missing
elevation raises `TypeError`.  Each per-pair column is prepended with a
0 to match the number of points; cumulative distances are divided by
1000 for kilometres. -/
def process_data (gd : GeoDist) (cs : List GpxPoint) : Option (List MetricsRow) :=
  match cs with
  | [] => none
  | _ => do
    let ediffs ← optDiffs (cs.map (·.elevation))
    let d3 := dist3List gd cs
    let d2 := dist2List gd cs
    pure (buildRows cs (0 :: ediffs) (0 :: d3) (0 :: d2)
      (0 :: (cumsum d3).map (· / 1000)) (0 :: (cumsum d2).map (· / 1000)))

/-- Model of `Route.__init__`: `_load_gpx` followed by `_process_data`. -/
def routeData (gd : GeoDist) (g : GpxFile) : Option (List MetricsRow) :=
  (load_gpx g).bind (process_data gd)

/-- Model of `gpxpy.geo.length(locations, _3d=True)`, used by
`segment.length_3d()` (the `total_distance` property): for each
consecutive pair it computes `location.distance_3d(previous_location)` —
note the later point is the FIRST argument — and adds the result when it
is truthy (adding 0 is skipped, which leaves the sum unchanged). -/
def length_3d (gd : GeoDist) (pts : List GpxPoint) : ℚ :=
  ((pts.zip pts.tail).map fun p =>
      gd p.2.latitude p.2.longitude p.2.elevation p.1.latitude p.1.longitude p.1.elevation).foldl
    (fun acc d => if d = 0 then acc else acc + d) 0

/-- Model of `Route.total_distance = self.segment.length_3d()`. -/
def total_distance (gd : GeoDist) (pts : List GpxPoint) : ℚ :=
  length_3d gd pts

/-- Model of `filter(lambda e: e is not None, elevations)` inside
`gpxpy.geo.calculate_uphill_downhill`. -/
def filterSomes (l : List (Option ℚ)) : List ℚ := l.filterMap id

/-- The elevation smoothing inside
`gpxpy.geo.calculate_uphill_downhill`: every interior point is replaced
by `0.3*previous + 0.4*current + 0.3*next`; the two endpoints are kept. -/
def smooth (es : List ℚ) : List ℚ :=
  (List.range es.length).map fun n =>
    if 0 < n ∧ n < es.length - 1 then
      3/10 * es.getD (n-1) 0 + 4/10 * es.getD n 0 + 3/10 * es.getD (n+1) 0
    else es.getD n 0

/-- Model of `gpxpy.geo.calculate_uphill_downhill(elevations)` as called by
`segment.get_uphill_downhill()`: drop missing elevations, smooth, then
accumulate `uphill += d` for positive consecutive differences `d` and
`downhill -= d` otherwise. -/
def uphillDownhill (es0 : List (Option ℚ)) : ℚ × ℚ :=
  match es0 with
  | [] => (0, 0)
  | _ =>
    let se := smooth (filterSomes es0)
    (se.zip se.tail).foldl
      (fun acc p =>
        let d := p.2 - p.1
        if 0 < d then (acc.1 + d, acc.2) else (acc.1, acc.2 - d))
      (0, 0)

/-- Model of `Route.elevation_gain = self.segment.get_uphill_downhill().uphill`. -/
def elevation_gain (pts : List GpxPoint) : ℚ :=
  (uphillDownhill (pts.map (·.elevation))).1

/-- Model of `Route.elevation_loss = self.segment.get_uphill_downhill().downhill`. -/
def elevation_loss (pts : List GpxPoint) : ℚ :=
  (uphillDownhill (pts.map (·.elevation))).2

/-- Model of `Route.avg_elevation_gain_per_km = self.elevation_gain /
(self.total_distance / 1000)`.  Both operands are plain Python floats,
so a zero denominator raises `ZeroDivisionError`, modelled as `none`. -/
def avg_elevation_gain_per_km (gd : GeoDist) (pts : List GpxPoint) : Option ℚ :=
  if total_distance gd pts / 1000 = 0 then none
  else some (elevation_gain pts / (total_distance gd pts / 1000))

/-- Model of `Route.center_coordinates = np.mean(self.df[['latitude',
'longitude']].values, axis=0)`: the arithmetic mean latitude and
longitude over the dataframe rows (the engine only evaluates this on
nonempty tables — `np.mean` of an empty array is NaN). -/
def center_coordinates (rows : List MetricsRow) : ℚ × ℚ :=
  ((rows.map (·.latitude)).sum / rows.length,
   (rows.map (·.longitude)).sum / rows.length)

/-- Modelled from the spec: `RouteGroup.calculate_routes_distance` is
imported by `app.py` from the `route` module, but the `RouteGroup` class
is not among the sources under `src/`.  Spec §4.4: "Algorithm for
routes_distance_m: distance between the two routes' centroids (geodesic,
ground distance)."  Ground distance: the geodesic is evaluated with no
elevations. -/
def calculate_routes_distance (gd : GeoDist) (rows1 rows2 : List MetricsRow) : ℚ :=
  let c1 := center_coordinates rows1
  let c2 := center_coordinates rows2
  gd c1.1 c1.2 none c2.1 c2.2 none

/-- The caller's layout decision (`app.py`): `if distance < 50_000:`
show the single combined map, otherwise side-by-side maps. -/
def combined_map_shown (d : ℚ) : Bool := d < 50000

/-- Spec-side positive-part sum: the "sum of positive diffs". -/
def posSum (l : List ℚ) : ℚ :=
  l.foldl (fun acc d => if 0 < d then acc + d else acc) 0

/-- Spec-side negative-part sum: the "absolute sum of negative diffs"
(with gpxpy's tie, `d = 0` counted here, adding 0). -/
def negSum (l : List ℚ) : ℚ :=
  l.foldl (fun acc d => if 0 < d then acc else acc - d) 0

/-- Spec-side consecutive differences of a list. -/
def diffPairs (l : List ℚ) : List ℚ :=
  (l.zip l.tail).map fun p => p.2 - p.1

/-- The final `cum_distance_3d_km` entry of a metrics table (0 for an
empty table). -/
def lastCum3 (rows : List MetricsRow) : ℚ :=
  ((rows.map (·.cum_distance_3d_km)).getLast?).getD 0

/-- Concrete symmetric stand-in for the geodesic used to evaluate
witnesses (the real `gpxpy.geo.distance` involves `cos` and `sqrt` and
is not rational-valued): zero exactly on coincident inputs, symmetric,
nonnegative. -/
def demoDist : GeoDist := fun l1 o1 e1 l2 o2 e2 =>
  |l1 - l2| + |o1 - o2| + |e1.getD 0 - e2.getD 0|

/-- Concrete stand-in exhibiting the asymmetry of gpxpy's flat-earth
distance branch, which scales the longitude difference by
`cos(radians(latitude_1))` — a factor of the FIRST point's latitude.
Here the factor is the rational `1 - |lat1|/90`, which like the cosine
is strictly decreasing in `|lat1|` on `[0°, 90°]`. -/
def asymDist : GeoDist := fun l1 o1 _ l2 o2 _ =>
  |l1 - l2| + |o1 - o2| * (1 - |l1| / 90)

/-! ### Structural lemmas about the metrics pipeline -/

theorem optDiffs_length (l : List (Option ℚ)) (ds : List ℚ) (h : optDiffs l = some ds) :
    ds.length = l.length - 1 := by
  induction l generalizing ds with
  | nil => simp [optDiffs] at h; simp [← h]
  | cons a t ih =>
    match t with
    | [] => simp [optDiffs] at h; simp [← h]
    | b :: rest =>
      simp only [optDiffs, Option.bind_eq_bind, Option.bind_eq_some, Option.pure_def,
        Option.some.injEq] at h
      obtain ⟨d, hd, ds2, hds2, hcons⟩ := h
      have := ih ds2 hds2
      simp [← hcons, this]

theorem optDiffs_none_of_mem_none (l : List (Option ℚ)) (h2 : 2 ≤ l.length)
    (hmem : none ∈ l) : optDiffs l = none := by
  induction l with
  | nil => simp at h2
  | cons a t ih =>
    match t with
    | [] => simp at h2
    | b :: rest =>
      rcases List.mem_cons.mp hmem with h | hmem2
      · rw [← h]
        simp [optDiffs, optSub]
      · have hbn : b = none ∨ none ∈ rest := by
          rcases List.mem_cons.mp hmem2 with h | h
          · exact Or.inl h.symm
          · exact Or.inr h
        rcases hbn with rfl | hr
        · cases a <;> simp [optDiffs, optSub]
        · have hrec : optDiffs (b :: rest) = none := by
            apply ih
            · match rest, hr with
              | x :: xs, _ => simp
            · simp [hr]
          cases a <;> cases b <;> simp [optDiffs, optSub, hrec]

theorem cumsumFrom_length (l : List ℚ) : ∀ acc, (cumsumFrom acc l).length = l.length := by
  induction l with
  | nil => intro acc; simp [cumsumFrom]
  | cons x xs ih => intro acc; simp [cumsumFrom, ih]

theorem cumsum_length (l : List ℚ) : (cumsum l).length = l.length :=
  cumsumFrom_length l 0

theorem cumsumFrom_getLast (l : List ℚ) (hl : l ≠ []) :
    ∀ acc, (cumsumFrom acc l).getLast? = some (acc + l.sum) := by
  induction l with
  | nil => simp at hl
  | cons x xs ih =>
    intro acc
    match xs, ih with
    | [], _ => simp [cumsumFrom]
    | y :: ys, ih =>
      have h1 : cumsumFrom acc (x :: y :: ys) = (acc + x) :: cumsumFrom (acc + x) (y :: ys) :=
        rfl
      have h2 : cumsumFrom (acc + x) (y :: ys) ≠ [] := by
        intro h
        have := cumsumFrom_length (y :: ys) (acc + x)
        rw [h] at this
        simp at this
      rw [h1, List.getLast?_cons, ih (by simp) (acc + x)]
      simp [add_assoc]

theorem dist3List_length (gd : GeoDist) (cs : List GpxPoint) :
    (dist3List gd cs).length = cs.length - 1 := by
  simp [dist3List, List.length_zip]

theorem dist2List_length (gd : GeoDist) (cs : List GpxPoint) :
    (dist2List gd cs).length = cs.length - 1 := by
  simp [dist2List, List.length_zip]

theorem buildRows_length (cs : List GpxPoint) :
    ∀ es as3 bs xs ys : List ℚ, es.length = cs.length → as3.length = cs.length →
      bs.length = cs.length → xs.length = cs.length → ys.length = cs.length →
      (buildRows cs es as3 bs xs ys).length = cs.length := by
  induction cs with
  | nil => intros es as3 bs xs ys _ _ _ _ _; simp [buildRows]
  | cons c ct ih =>
    intro es as3 bs xs ys he ha hb hx hy
    match es, as3, bs, xs, ys with
    | e :: es, a :: as3, b :: bs, x :: xs, y :: ys =>
      simp only [List.length_cons, Nat.succ.injEq] at he ha hb hx hy
      simp [buildRows, ih es as3 bs xs ys he ha hb hx hy]

theorem buildRows_mem (cs : List GpxPoint) :
    ∀ es as3 bs xs ys : List ℚ, ∀ row ∈ buildRows cs es as3 bs xs ys,
      ∃ c e a b x y, row = mkMetricsRow c e a b x y := by
  induction cs with
  | nil => intro es as3 bs xs ys row hrow; simp [buildRows] at hrow
  | cons c ct ih =>
    intro es as3 bs xs ys row hrow
    match es, as3, bs, xs, ys with
    | [], _, _, _, _ => simp [buildRows] at hrow
    | _ :: _, [], _, _, _ => simp [buildRows] at hrow
    | _ :: _, _ :: _, [], _, _ => simp [buildRows] at hrow
    | _ :: _, _ :: _, _ :: _, [], _ => simp [buildRows] at hrow
    | _ :: _, _ :: _, _ :: _, _ :: _, [] => simp [buildRows] at hrow
    | e :: es, a :: as3, b :: bs, x :: xs, y :: ys =>
      simp only [buildRows, List.mem_cons] at hrow
      rcases hrow with rfl | hrow
      · exact ⟨c, e, a, b, x, y, rfl⟩
      · exact ih es as3 bs xs ys row hrow

theorem buildRows_map_cum3 (cs : List GpxPoint) :
    ∀ es as3 bs xs ys : List ℚ, es.length = cs.length → as3.length = cs.length →
      bs.length = cs.length → xs.length = cs.length → ys.length = cs.length →
      (buildRows cs es as3 bs xs ys).map (·.cum_distance_3d_km) = xs := by
  induction cs with
  | nil =>
    intro es as3 bs xs ys _ _ _ hx _
    match xs, hx with
    | [], _ => simp [buildRows]
  | cons c ct ih =>
    intro es as3 bs xs ys he ha hb hx hy
    match es, as3, bs, xs, ys with
    | e :: es, a :: as3, b :: bs, x :: xs, y :: ys =>
      simp only [List.length_cons, Nat.succ.injEq] at he ha hb hx hy
      simp [buildRows, mkMetricsRow, ih es as3 bs xs ys he ha hb hx hy]

theorem buildRows_map_lat (cs : List GpxPoint) :
    ∀ es as3 bs xs ys : List ℚ, es.length = cs.length → as3.length = cs.length →
      bs.length = cs.length → xs.length = cs.length → ys.length = cs.length →
      (buildRows cs es as3 bs xs ys).map (·.latitude) = cs.map (·.latitude) := by
  induction cs with
  | nil => intro es as3 bs xs ys _ _ _ _ _; simp [buildRows]
  | cons c ct ih =>
    intro es as3 bs xs ys he ha hb hx hy
    match es, as3, bs, xs, ys with
    | e :: es, a :: as3, b :: bs, x :: xs, y :: ys =>
      simp only [List.length_cons, Nat.succ.injEq] at he ha hb hx hy
      simp [buildRows, mkMetricsRow, ih es as3 bs xs ys he ha hb hx hy]

theorem buildRows_map_lon (cs : List GpxPoint) :
    ∀ es as3 bs xs ys : List ℚ, es.length = cs.length → as3.length = cs.length →
      bs.length = cs.length → xs.length = cs.length → ys.length = cs.length →
      (buildRows cs es as3 bs xs ys).map (·.longitude) = cs.map (·.longitude) := by
  induction cs with
  | nil => intro es as3 bs xs ys _ _ _ _ _; simp [buildRows]
  | cons c ct ih =>
    intro es as3 bs xs ys he ha hb hx hy
    match es, as3, bs, xs, ys with
    | e :: es, a :: as3, b :: bs, x :: xs, y :: ys =>
      simp only [List.length_cons, Nat.succ.injEq] at he ha hb hx hy
      simp [buildRows, mkMetricsRow, ih es as3 bs xs ys he ha hb hx hy]

theorem process_data_eq (gd : GeoDist) (cs : List GpxPoint) (rows : List MetricsRow)
    (h : process_data gd cs = some rows) :
    cs ≠ [] ∧ ∃ ediffs, optDiffs (cs.map (·.elevation)) = some ediffs ∧
      rows = buildRows cs (0 :: ediffs) (0 :: dist3List gd cs) (0 :: dist2List gd cs)
        (0 :: (cumsum (dist3List gd cs)).map (· / 1000))
        (0 :: (cumsum (dist2List gd cs)).map (· / 1000)) := by
  match cs with
  | [] => simp [process_data] at h
  | c :: ct =>
    refine ⟨by simp, ?_⟩
    simp only [process_data, Option.bind_eq_bind, Option.bind_eq_some, Option.pure_def,
      Option.some.injEq] at h
    obtain ⟨ediffs, hed, hrows⟩ := h
    exact ⟨ediffs, hed, hrows.symm⟩

theorem process_data_length (gd : GeoDist) (cs : List GpxPoint) (rows : List MetricsRow)
    (h : process_data gd cs = some rows) : rows.length = cs.length := by
  obtain ⟨hne, ediffs, hed, hrows⟩ := process_data_eq gd cs rows h
  match cs, hne with
  | c :: ct, _ =>
    have hlen : ediffs.length = (c :: ct).length - 1 := by
      have := optDiffs_length _ _ hed
      simpa using this
    subst hrows
    apply buildRows_length
    · simp [hlen]
    · simp [dist3List_length]
    · simp [dist2List_length]
    · simp [cumsum_length, dist3List_length]
    · simp [cumsum_length, dist2List_length]

theorem foldl_skip_zero (l : List ℚ) : ∀ acc : ℚ,
    l.foldl (fun acc d => if d = 0 then acc else acc + d) acc = acc + l.sum := by
  induction l with
  | nil => intro acc; simp
  | cons x xs ih =>
    intro acc
    by_cases hx : x = 0 <;> simp [hx, ih, add_assoc]

theorem foldl_add_shape (g : ℚ → ℚ) (l : List ℚ) : ∀ a : ℚ,
    l.foldl (fun acc d => acc + g d) a = a + (l.map g).sum := by
  induction l with
  | nil => intro a; simp
  | cons x xs ih => intro a; simp [ih, add_assoc]

theorem posSum_eq_map_sum (l : List ℚ) :
    posSum l = (l.map fun d => if 0 < d then d else 0).sum := by
  have hfn : (fun (acc d : ℚ) => if 0 < d then acc + d else acc)
      = fun acc d => acc + (if 0 < d then d else 0) := by
    funext acc d
    by_cases h : 0 < d <;> simp [h]
  rw [posSum, hfn, foldl_add_shape, zero_add]

theorem negSum_eq_map_sum (l : List ℚ) :
    negSum l = (l.map fun d => if 0 < d then 0 else -d).sum := by
  have hfn : (fun (acc d : ℚ) => if 0 < d then acc else acc - d)
      = fun acc d => acc + (if 0 < d then 0 else -d) := by
    funext acc d
    by_cases h : 0 < d <;> simp [h, sub_eq_add_neg]
  rw [negSum, hfn, foldl_add_shape, zero_add]

theorem posSum_sub_negSum (l : List ℚ) : posSum l - negSum l = l.sum := by
  rw [posSum_eq_map_sum, negSum_eq_map_sum]
  induction l with
  | nil => simp
  | cons x xs ih =>
    simp only [List.map_cons, List.sum_cons]
    by_cases h : 0 < x <;> simp only [if_pos, if_neg, h, if_true, if_false] <;> linarith [ih]

theorem foldl_pair_add (g1 g2 : ℚ → ℚ) (l : List ℚ) : ∀ u d : ℚ,
    l.foldl (fun acc x => (acc.1 + g1 x, acc.2 + g2 x)) (u, d)
      = (u + (l.map g1).sum, d + (l.map g2).sum) := by
  induction l with
  | nil => intro u d; simp
  | cons x xs ih => intro u d; simp [ih, add_assoc]

theorem diffPairs_sum (l : List ℚ) :
    (diffPairs l).sum = (l.getLast?).getD 0 - (l.head?).getD 0 := by
  induction l with
  | nil => simp [diffPairs]
  | cons x xs ih =>
    match xs, ih with
    | [], _ => simp [diffPairs]
    | y :: ys, ih =>
      have h1 : diffPairs (x :: y :: ys) = (y - x) :: diffPairs (y :: ys) := rfl
      rw [h1, List.sum_cons, ih, List.getLast?_cons_cons]
      simp

theorem filterSomes_all_some (l : List (Option ℚ)) (h : ∀ x ∈ l, x.isSome = true) :
    filterSomes l = l.map fun o => o.getD 0 := by
  induction l with
  | nil => simp [filterSomes]
  | cons a t ih =>
    have ha : a.isSome = true := h a (by simp)
    match a, ha with
    | some v, _ =>
      have := ih fun x hx => h x (by simp [hx])
      simp [filterSomes] at this
      simp [filterSomes, this]

theorem smooth_length (es : List ℚ) : (smooth es).length = es.length := by
  simp [smooth]

theorem smooth_head? (es : List ℚ) : (smooth es).head? = es.head? := by
  match es with
  | [] => simp [smooth]
  | e :: rest =>
    have h1 : (e :: rest).length = rest.length + 1 := by simp
    rw [smooth, h1, List.range_succ_eq_map]
    simp

theorem smooth_getLast? (es : List ℚ) : (smooth es).getLast? = es.getLast? := by
  match es with
  | [] => simp [smooth]
  | e :: rest =>
    have h1 : (e :: rest).length = rest.length + 1 := by simp
    rw [smooth, h1, List.range_succ, List.map_append]
    rw [List.getLast?_append]
    simp only [List.map_cons, List.map_nil, List.getLast?_singleton]
    have h2 : ¬(0 < rest.length ∧ rest.length < rest.length + 1 - 1) := by omega
    rw [if_neg h2]
    have h3 : (e :: rest).getLast? = some ((e :: rest).getD rest.length 0) := by
      rw [List.getLast?_eq_getElem?, List.getD_eq_getElem?_getD]
      have : rest.length < (e :: rest).length := by simp
      simp [List.getElem?_eq_getElem this]
    simp [h3]

theorem uphillDownhill_eq (es0 : List (Option ℚ)) (h : es0 ≠ []) :
    uphillDownhill es0 = (posSum (diffPairs (smooth (filterSomes es0))),
      negSum (diffPairs (smooth (filterSomes es0)))) := by
  match es0, h with
  | e :: rest, _ =>
    have hF : (fun (acc : ℚ × ℚ) (p : ℚ × ℚ) =>
        let d := p.2 - p.1
        if 0 < d then (acc.1 + d, acc.2) else (acc.1, acc.2 - d))
        = fun acc p => (acc.1 + (if 0 < p.2 - p.1 then p.2 - p.1 else 0),
            acc.2 + (if 0 < p.2 - p.1 then 0 else -(p.2 - p.1))) := by
      funext acc p
      by_cases hd : 0 < p.2 - p.1
      · simp only [if_pos hd]
        simp
      · simp only [if_neg hd]
        simp [sub_eq_add_neg]
    show ((smooth (filterSomes (e :: rest))).zip
        (smooth (filterSomes (e :: rest))).tail).foldl _ (0, 0) = _
    set se := smooth (filterSomes (e :: rest)) with hse
    rw [hF]
    have hfold := foldl_pair_add (fun d => if 0 < d then d else 0)
      (fun d => if 0 < d then 0 else -d) (diffPairs se) 0 0
    rw [diffPairs, List.foldl_map] at hfold
    simp only [zero_add] at hfold
    rw [hfold, posSum_eq_map_sum, negSum_eq_map_sum, diffPairs, List.map_map, List.map_map]

/-! ### Concrete inputs used by witnesses and counterexamples -/

/-- Two-point track for the C7 witness. -/
def w7pts : List GpxPoint := [⟨1, 2, some 3⟩, ⟨1, 2 + 1/1000, some 5⟩]

/-- Coincident pair (same lat/lon, different elevations), C2 witness. -/
def w2pts : List GpxPoint := [⟨10, 20, some 100⟩, ⟨10, 20, some 95⟩]

/-- Coincident pair with rising elevation, C2 counterexample. -/
def c2pts : List GpxPoint := [⟨0, 0, some 0⟩, ⟨0, 0, some 10⟩]

/-- One-track, one-segment, one-point file, C4 counterexample. -/
def g4 : GpxFile := ⟨[⟨[⟨[⟨0, 0, some 0⟩]⟩]⟩]⟩

/-- A file whose second point has no elevation, C6 counterexample. -/
def g6 : GpxFile := ⟨[⟨[⟨[⟨0, 0, some 0⟩, ⟨0, 1/1000, none⟩]⟩]⟩]⟩

/-- The same file with the elevation the claim says would be
substituted (0), C6 counterexample contrast. -/
def g6d : GpxFile := ⟨[⟨[⟨[⟨0, 0, some 0⟩, ⟨0, 1/1000, some 0⟩]⟩]⟩]⟩

/-- Two-point list whose second point has no elevation, C6 witness. -/
def w6pts : List GpxPoint := [⟨3, 4, some 5⟩, ⟨3, 5, none⟩]

/-- Two distinct points (nonzero distance), C3 witness part 1. -/
def w3pts : List GpxPoint := [⟨0, 0, some 0⟩, ⟨0, 1/100, some 9⟩]

/-- Two identical points (total 3D distance 0), C3 witness part 2 and
counterexample. -/
def c3pts : List GpxPoint := [⟨5, 5, some 7⟩, ⟨5, 5, some 7⟩]

/-! ### C7 -/

/-- C7: for every loaded track the derived metrics table has exactly as
many rows as the track has points, and the synthetic first row has
elevation_diff, per-pair 2D/3D distances and cumulative distances all 0
and the default slope bucket label "0 → 10%". -/
theorem metrics_table_shape (gd : GeoDist) (cs : List GpxPoint) (rows : List MetricsRow)
    (h : process_data gd cs = some rows) :
    rows.length = cs.length ∧
    (rows.head?).map (fun r => (r.elevation_diff, r.distance_between_points_3d,
      r.distance_between_points_2d, r.cum_distance_3d_km, r.cum_distance_2d_km,
      r.slope_bin)) = some (0, 0, 0, 0, 0, "0 → 10%") := by
  refine ⟨process_data_length gd cs rows h, ?_⟩
  obtain ⟨hne, ediffs, hed, hrows⟩ := process_data_eq gd cs rows h
  match cs, hne with
  | c :: ct, _ =>
    subst hrows
    simp only [buildRows, List.head?_cons, Option.map_some']
    have hbin : slopeBinLabel (fdivQ 0 0) = "0 → 10%" := by decide
    simp [mkMetricsRow, hbin]

/-- C7 witness: the theorem evaluated on a concrete two-point track. -/
theorem metrics_table_shape_witness :
    ((process_data demoDist w7pts).getD []).length = w7pts.length ∧
    (((process_data demoDist w7pts).getD []).head?).map
      (fun r => (r.elevation_diff, r.distance_between_points_3d,
        r.distance_between_points_2d, r.cum_distance_3d_km, r.cum_distance_2d_km,
        r.slope_bin)) = some (0, 0, 0, 0, 0, "0 → 10%") :=
  metrics_table_shape demoDist w7pts ((process_data demoDist w7pts).getD []) (by decide)

/-! ### C2 -/

/-- C2 (amended): for a consecutive pair whose computed 2D distance is
0, the slope gradient is 0 only when the elevation difference is also 0
(the 0/0 NaN is filled by `fillna`); when the elevation difference is
nonzero the gradient is `+inf` / `-inf` — the division raises no error,
but `fillna` does not replace infinities, so the stored value is
non-finite. -/
theorem zero_distance_gradient (gd : GeoDist) (cs : List GpxPoint) (rows : List MetricsRow)
    (h : process_data gd cs = some rows) (row : MetricsRow) (hrow : row ∈ rows)
    (hd2 : row.distance_between_points_2d = 0) :
    row.slope_gradient = (if row.elevation_diff = 0 then FVal.fin 0
      else if 0 < row.elevation_diff then FVal.pinf else FVal.ninf) := by
  obtain ⟨hne, ediffs, hed, hrows⟩ := process_data_eq gd cs rows h
  subst hrows
  obtain ⟨c, e, a, b, x, y, rfl⟩ := buildRows_mem _ _ _ _ _ _ row hrow
  simp only [mkMetricsRow] at hd2 ⊢
  subst hd2
  by_cases he : e = 0
  · simp [fdivQ, he, fillGrad]
  · by_cases hpos : 0 < e <;> simp [fdivQ, he, hpos, fillGrad]

/-- C2 witness: the coincident pair (10°, 20°) with elevations 100 and
95 yields the second metrics row below; its gradient is the infinite
branch of the statement. -/
theorem zero_distance_gradient_witness :
    (mkMetricsRow ⟨10, 20, some 95⟩ (-5) 5 0 (1/200) 0).slope_gradient =
      (if (mkMetricsRow ⟨10, 20, some 95⟩ (-5) 5 0 (1/200) 0).elevation_diff = 0 then FVal.fin 0
       else if 0 < (mkMetricsRow ⟨10, 20, some 95⟩ (-5) 5 0 (1/200) 0).elevation_diff
       then FVal.pinf else FVal.ninf) :=
  zero_distance_gradient demoDist w2pts ((process_data demoDist w2pts).getD [])
    (by decide) (mkMetricsRow ⟨10, 20, some 95⟩ (-5) 5 0 (1/200) 0) (by decide) (by decide)

/-- C2 counterexample: two coincident consecutive points with elevations
0 and 10 produce `slope_gradient = +inf`, not 0 as the claim states. -/
theorem coincident_points_inf_gradient_cex :
    (process_data demoDist c2pts).map (fun rows => rows.map (·.slope_gradient))
      = some [FVal.fin 0, FVal.pinf] ∧ FVal.pinf ≠ FVal.fin 0 := by decide

/-! ### C4 -/

/-- C4 (amended): route construction fails when the file contains no
track, no segment in the first track, or an empty first segment (the
code raises `IndexError` / `ValueError`; there is no dedicated
`EmptyTrackError`).  A first segment with exactly one point, however, is
accepted — see the counterexample. -/
theorem empty_track_fails (gd : GeoDist) (g : GpxFile)
    (h : g.tracks = [] ∨ (g.tracks.headD ⟨[]⟩).segments = [] ∨
      ((g.tracks.headD ⟨[]⟩).segments.headD ⟨[]⟩).points = []) :
    routeData gd g = none := by
  match g with
  | ⟨[]⟩ => rfl
  | ⟨⟨[]⟩ :: ts⟩ => rfl
  | ⟨⟨⟨[]⟩ :: ss⟩ :: ts⟩ => rfl
  | ⟨⟨⟨p :: ps⟩ :: ss⟩ :: ts⟩ =>
    exfalso
    rcases h with h | h | h <;> simp [List.headD] at h

/-- C4 witness: a file with no tracks fails to load. -/
theorem empty_track_fails_witness : routeData demoDist ⟨[]⟩ = none :=
  empty_track_fails demoDist ⟨[]⟩ (Or.inl rfl)

/-- C4 counterexample: a file whose first segment has exactly one point
(fewer than 2) loads and produces a one-row metrics table, contradicting
the claim that loading fails for segments with fewer than 2 points. -/
theorem one_point_track_succeeds_cex :
    (routeData demoDist g4).map List.length = some 1 := by decide

/-! ### C6 -/

/-- C6 (amended): a point with a missing elevation is loaded with the
missing value preserved (no 0 is substituted), and for any track of at
least 2 points containing such a point the metric derivation fails
(`np.diff` on the object-dtype elevation column raises `TypeError`);
no downstream metrics are computed. -/
theorem missing_elevation_fails (gd : GeoDist) (cs : List GpxPoint)
    (h2 : 2 ≤ cs.length) (p : GpxPoint) (hp : p ∈ cs) (hnone : p.elevation = none) :
    process_data gd cs = none := by
  match cs, h2 with
  | c1 :: c2 :: ct, _ =>
    have hmem : none ∈ (c1 :: c2 :: ct).map (·.elevation) := by
      rw [← hnone]
      exact List.mem_map_of_mem _ hp
    have hlen : 2 ≤ ((c1 :: c2 :: ct).map (·.elevation)).length := by simp
    have hod := optDiffs_none_of_mem_none _ hlen hmem
    simp only [List.map_cons] at hod
    simp [process_data, hod]

/-- C6 witness: the theorem evaluated on a concrete two-point list whose
second point has no elevation. -/
theorem missing_elevation_fails_witness : process_data demoDist w6pts = none :=
  missing_elevation_fails demoDist w6pts (by decide) ⟨3, 5, none⟩ (by decide) rfl

/-- C6 counterexample: loading `g6` (second point without elevation)
raises instead of computing metrics with a defaulted elevation of 0 —
while the claim-predicted substituted file `g6d` would process fine. -/
theorem missing_elevation_raises_cex :
    routeData demoDist g6 = none ∧ (routeData demoDist g6d).isSome = true := by decide

/-! ### C3 -/

/-- C3 (amended): `avg_elevation_gain_per_km` equals `elevation_gain /
(total_distance / 1000)` whenever the total distance is nonzero; when
the total distance is 0 the attribute raises `ZeroDivisionError`
(modelled `none`) — it does not return a sentinel value. -/
theorem avg_gain_per_km_spec (gd : GeoDist) (pts : List GpxPoint) :
    (total_distance gd pts ≠ 0 →
      avg_elevation_gain_per_km gd pts =
        some (elevation_gain pts / (total_distance gd pts / 1000))) ∧
    (total_distance gd pts = 0 → avg_elevation_gain_per_km gd pts = none) := by
  constructor
  · intro h
    have hq : total_distance gd pts / 1000 ≠ 0 := by
      simp [div_eq_zero_iff, h]
    simp [avg_elevation_gain_per_km, hq]
  · intro h
    simp [avg_elevation_gain_per_km, h]

/-- C3 witness: on a track of positive length the ratio formula holds;
on a track of two identical points the attribute raises (is `none`). -/
theorem avg_gain_per_km_spec_witness :
    avg_elevation_gain_per_km demoDist w3pts =
      some (elevation_gain w3pts / (total_distance demoDist w3pts / 1000)) ∧
    avg_elevation_gain_per_km demoDist c3pts = none :=
  ⟨(avg_gain_per_km_spec demoDist w3pts).1 (by decide),
   (avg_gain_per_km_spec demoDist c3pts).2 (by decide)⟩

/-- C3 counterexample: with total distance 0 the attribute yields an
exception (`none`), not the sentinel 0 (nor any other value) the claim
describes. -/
theorem avg_gain_zero_distance_cex :
    total_distance demoDist c3pts = 0 ∧
    avg_elevation_gain_per_km demoDist c3pts = none ∧
    avg_elevation_gain_per_km demoDist c3pts ≠ some 0 := by
  refine ⟨by decide, by decide, ?_⟩
  intro h
  rw [show avg_elevation_gain_per_km demoDist c3pts = none from by decide] at h
  exact Option.noConfusion h

/-! ### C5 -/

/-- Three-point track with elevations 0, 10, 0 (C5 witness and
counterexample). -/
def w5pts : List GpxPoint :=
  [⟨0, 0, some 0⟩, ⟨0, 1/1000, some 10⟩, ⟨0, 2/1000, some 0⟩]

/-- C5 (amended): `elevation_gain` / `elevation_loss` are the sums of
positive / absolute negative consecutive differences of gpxpy's
SMOOTHED elevations (each interior elevation replaced by the
0.3/0.4/0.3 weighted average of its neighbours), not of the raw per-row
`elevation_diff` column; because the smoothing leaves the endpoints
unchanged, `elevation_gain − elevation_loss = elevation[last] −
elevation[first]` still holds exactly (telescoping). -/
theorem gain_loss_smoothed (pts : List GpxPoint) (hne : pts ≠ [])
    (hall : ∀ p ∈ pts, p.elevation.isSome = true) :
    elevation_gain pts = posSum (diffPairs (smooth (pts.map fun p => p.elevation.getD 0))) ∧
    elevation_loss pts = negSum (diffPairs (smooth (pts.map fun p => p.elevation.getD 0))) ∧
    elevation_gain pts - elevation_loss pts =
      ((pts.map fun p => p.elevation.getD 0).getLast?).getD 0 -
      ((pts.map fun p => p.elevation.getD 0).head?).getD 0 := by
  have hne0 : pts.map (·.elevation) ≠ [] := by
    simp [hne]
  have hud := uphillDownhill_eq (pts.map (·.elevation)) hne0
  have hfs : filterSomes (pts.map (·.elevation)) = pts.map fun p => p.elevation.getD 0 := by
    rw [filterSomes_all_some]
    · rw [List.map_map]
      rfl
    · intro x hx
      obtain ⟨p, hp, rfl⟩ := List.mem_map.mp hx
      exact hall p hp
  rw [hfs] at hud
  refine ⟨?_, ?_, ?_⟩
  · rw [elevation_gain, hud]
  · rw [elevation_loss, hud]
  · rw [elevation_gain, elevation_loss, hud]
    simp only
    rw [posSum_sub_negSum, diffPairs_sum, smooth_getLast?, smooth_head?]

/-- C5 witness: the theorem evaluated on the three-point 0/10/0 track. -/
theorem gain_loss_smoothed_witness :
    elevation_gain w5pts = posSum (diffPairs (smooth (w5pts.map fun p => p.elevation.getD 0))) ∧
    elevation_loss w5pts = negSum (diffPairs (smooth (w5pts.map fun p => p.elevation.getD 0))) ∧
    elevation_gain w5pts - elevation_loss w5pts =
      ((w5pts.map fun p => p.elevation.getD 0).getLast?).getD 0 -
      ((w5pts.map fun p => p.elevation.getD 0).head?).getD 0 :=
  gain_loss_smoothed w5pts (by decide) (by decide)

/-- C5 counterexample: on the 0/10/0 track the code's elevation gain is
4 (smoothed elevations 0, 4, 0), while the sum of the positive per-row
`elevation_diff` values — what the claim states — is 10. -/
theorem gain_not_raw_diff_sum_cex :
    elevation_gain w5pts = 4 ∧
    (process_data demoDist w5pts).map (fun rows => posSum (rows.map (·.elevation_diff)))
      = some 10 ∧ (4 : ℚ) ≠ 10 := by decide

/-! ### C8 -/

theorem getLast_cons_cumsum_div (l : List ℚ) :
    (((0 : ℚ) :: (cumsum l).map (· / 1000)).getLast?).getD 0 = l.sum / 1000 := by
  match l with
  | [] => simp [cumsum, cumsumFrom]
  | x :: xs =>
    have hlast : (cumsum (x :: xs)).getLast? = some (0 + (x :: xs).sum) :=
      cumsumFrom_getLast (x :: xs) (by simp) 0
    rw [List.getLast?_cons, List.getLast?_map, hlast]
    simp

/-- Two distinct points at moderate latitude (C8 witness). -/
def w8pts : List GpxPoint := [⟨40, 7, some 100⟩, ⟨40 + 1/100, 7 + 1/100, some 120⟩]

/-- Two points at latitudes 60 and 60.2 (within the 0.2° flat-earth
branch of gpxpy), C8 counterexample. -/
def c8pts : List GpxPoint := [⟨60, 0, some 0⟩, ⟨60 + 1/5, 1/5, some 0⟩]

/-- C8 (amended): `total_distance` sums the pairwise distance with the
later point as FIRST argument (`location.distance_3d(previous_location)`),
while the metrics table's final cumulative 3D entry sums the same pairs
with the earlier point first; the two totals agree exactly — hence
within any tolerance — whenever the distance function is symmetric.
gpxpy's flat-earth branch is NOT symmetric (it scales the longitude
difference by the cosine of the first point's latitude), so the two
computations can differ beyond floating-point round-off; see the
counterexample. -/
theorem total_distance_eq_last_cum (gd : GeoDist) (pts : List GpxPoint)
    (rows : List MetricsRow)
    (hsym : ∀ la lo el la2 lo2 el2, gd la lo el la2 lo2 el2 = gd la2 lo2 el2 la lo el)
    (h : process_data gd pts = some rows) :
    total_distance gd pts = lastCum3 rows * 1000 := by
  obtain ⟨hne, ediffs, hed, hrows⟩ := process_data_eq gd pts rows h
  match pts, hne with
  | c :: ct, _ =>
    have hlenE : ediffs.length = (c :: ct).length - 1 := by
      have := optDiffs_length _ _ hed
      simpa using this
    have hmap : rows.map (·.cum_distance_3d_km)
        = 0 :: (cumsum (dist3List gd (c :: ct))).map (· / 1000) := by
      subst hrows
      apply buildRows_map_cum3 <;>
        simp [hlenE, dist3List_length, dist2List_length, cumsum_length]
    have hswap : ((c :: ct).zip (c :: ct).tail).map (fun p =>
          gd p.2.latitude p.2.longitude p.2.elevation p.1.latitude p.1.longitude p.1.elevation)
        = dist3List gd (c :: ct) := by
      rw [dist3List]
      exact List.map_congr_left fun p _ => hsym _ _ _ _ _ _
    rw [lastCum3, hmap, getLast_cons_cumsum_div, total_distance, length_3d, hswap,
      foldl_skip_zero]
    field_simp

/-- C8 witness: with the symmetric stand-in distance the two totals
agree on a concrete two-point track. -/
theorem total_distance_eq_last_cum_witness :
    total_distance demoDist w8pts =
      lastCum3 ((process_data demoDist w8pts).getD []) * 1000 :=
  total_distance_eq_last_cum demoDist w8pts ((process_data demoDist w8pts).getD [])
    (fun la lo el la2 lo2 el2 => by simp [demoDist, abs_sub_comm]) (by decide)

/-- C8 counterexample: with the asymmetric flat-earth-style distance,
the metrics table's final cumulative entry × 1000 (the pair traversed
forward) differs from `total_distance` (the pair traversed backward):
4/15 versus 599/2250 metres on the 60°/60.2° track. -/
theorem total_distance_asymmetry_cex :
    (process_data asymDist c8pts).map (fun rows => lastCum3 rows * 1000)
      ≠ some (total_distance asymDist c8pts) := by decide

/-! ### C9 -/

theorem center_coordinates_eq (gd : GeoDist) (cs : List GpxPoint) (rows : List MetricsRow)
    (h : process_data gd cs = some rows) :
    center_coordinates rows =
      ((cs.map (·.latitude)).sum / cs.length, (cs.map (·.longitude)).sum / cs.length) := by
  obtain ⟨hne, ediffs, hed, hrows⟩ := process_data_eq gd cs rows h
  match cs, hne with
  | c :: ct, _ =>
    have hlenE : ediffs.length = (c :: ct).length - 1 := by
      have := optDiffs_length _ _ hed
      simpa using this
    have hlat : rows.map (·.latitude) = (c :: ct).map (·.latitude) := by
      subst hrows
      apply buildRows_map_lat <;>
        simp [hlenE, dist3List_length, dist2List_length, cumsum_length]
    have hlon : rows.map (·.longitude) = (c :: ct).map (·.longitude) := by
      subst hrows
      apply buildRows_map_lon <;>
        simp [hlenE, dist3List_length, dist2List_length, cumsum_length]
    have hlen : rows.length = (c :: ct).length := process_data_length gd (c :: ct) rows h
    rw [center_coordinates, hlat, hlon, hlen]

/-- First route for the C9 witness. -/
def w9a : List GpxPoint := [⟨0, 0, some 0⟩, ⟨0, 1/10, some 0⟩]

/-- Second route for the C9 witness. -/
def w9b : List GpxPoint := [⟨1, 0, some 0⟩, ⟨1, 1/10, some 0⟩]

/-- C9: `routes_distance` is the ground geodesic distance between the
two routes' centroids, each centroid being the arithmetic mean
latitude/longitude of that route's samples; and the caller shows the
single combined view exactly when the distance is below 50 000 m. -/
theorem routes_distance_centroids (gd : GeoDist) (cs1 cs2 : List GpxPoint)
    (rows1 rows2 : List MetricsRow) (h1 : process_data gd cs1 = some rows1)
    (h2 : process_data gd cs2 = some rows2) :
    calculate_routes_distance gd rows1 rows2 =
      gd ((cs1.map (·.latitude)).sum / cs1.length) ((cs1.map (·.longitude)).sum / cs1.length)
        none
        ((cs2.map (·.latitude)).sum / cs2.length) ((cs2.map (·.longitude)).sum / cs2.length)
        none ∧
    ∀ d : ℚ, combined_map_shown d = true ↔ d < 50000 := by
  constructor
  · rw [calculate_routes_distance, center_coordinates_eq gd cs1 rows1 h1,
      center_coordinates_eq gd cs2 rows2 h2]
  · intro d
    simp [combined_map_shown]

/-- C9 witness: the theorem evaluated on two concrete two-point routes. -/
theorem routes_distance_centroids_witness :
    calculate_routes_distance demoDist ((process_data demoDist w9a).getD [])
        ((process_data demoDist w9b).getD []) =
      demoDist ((w9a.map (·.latitude)).sum / w9a.length) ((w9a.map (·.longitude)).sum / w9a.length)
        none
        ((w9b.map (·.latitude)).sum / w9b.length) ((w9b.map (·.longitude)).sum / w9b.length)
        none ∧
    ∀ d : ℚ, combined_map_shown d = true ↔ d < 50000 :=
  routes_distance_centroids demoDist w9a w9b ((process_data demoDist w9a).getD [])
    ((process_data demoDist w9b).getD []) (by decide) (by decide)

/-! ### Binning lemmas for C1 and C10 -/

theorem cutLabel_none_right (bins : List ℚ) (labels : List String) (v : ℚ)
    (h : ∀ u ∈ bins.tail, u ≤ v) : cutLabel bins labels v = none := by
  induction bins generalizing labels with
  | nil => rfl
  | cons l rest ih =>
    match rest, labels with
    | [], _ => rfl
    | u :: bs, [] => rfl
    | u :: bs, lab :: labs =>
      have hu : u ≤ v := h u (by simp)
      rw [cutLabel, if_neg]
      · exact ih labs fun x hx => h x (List.mem_cons_of_mem u hx)
      · rintro ⟨_, hlt⟩
        linarith

theorem cutLabel_none_left (bins : List ℚ) (labels : List String) (v : ℚ)
    (h : ∀ b ∈ bins, v < b) : cutLabel bins labels v = none := by
  induction bins generalizing labels with
  | nil => rfl
  | cons l rest ih =>
    match rest, labels with
    | [], _ => rfl
    | u :: bs, [] => rfl
    | u :: bs, lab :: labs =>
      have hl : v < l := h l (by simp)
      rw [cutLabel, if_neg]
      · exact ih labs fun x hx => h x (List.mem_cons_of_mem l hx)
      · rintro ⟨hle, _⟩
        linarith

theorem cutLabel_pos (bins : List ℚ) (labels : List String) (v : ℚ) :
    ∀ k, k + 1 < bins.length → labels.length + 1 = bins.length →
      (∀ j < bins.length, ∀ i < j, bins.getD i 0 < bins.getD j 0) →
      bins.getD k 0 ≤ v → v < bins.getD (k+1) 0 →
      cutLabel bins labels v = some (labels.getD k "") := by
  induction bins generalizing labels with
  | nil =>
    intro k hk _ _ _ _
    simp at hk
  | cons l rest ih =>
    intro k hk hlab hmono hlow hhigh
    match rest, labels with
    | [], _ =>
      simp only [List.length_cons, List.length_nil] at hk
      omega
    | u :: bs, [] =>
      simp at hlab
    | u :: bs, lab :: labs =>
      match k with
      | 0 =>
        have hl : l ≤ v := hlow
        have hu : v < u := hhigh
        rw [cutLabel, if_pos ⟨hl, hu⟩]
        rfl
      | k + 1 =>
        have hvu : u ≤ v := by
          match k with
          | 0 => exact hlow
          | k + 1 =>
            have hlt : (l :: u :: bs).getD 1 0 < (l :: u :: bs).getD (k + 2) 0 :=
              hmono (k + 2) (by simp only [List.length_cons] at hk ⊢; omega) 1 (by omega)
            have hlow2 : (l :: u :: bs).getD (k + 2) 0 ≤ v := hlow
            calc u = (l :: u :: bs).getD 1 0 := rfl
              _ ≤ v := le_of_lt (lt_of_lt_of_le hlt hlow2)
        rw [cutLabel, if_neg]
        · exact ih labs k
            (by simp only [List.length_cons] at hk ⊢; omega)
            (by simp only [List.length_cons] at hlab ⊢; omega)
            (fun j hj i hij =>
              hmono (j+1) (by simp only [List.length_cons] at hj ⊢; omega) (i+1) (by omega))
            hlow hhigh
        · rintro ⟨_, hvlt⟩
          linarith

/-- The slope-bin edge at index `k` is `-1 + k/10`, for `k < 20`. -/
theorem slope_bins_getD (k : Nat) (hk : k < 20) :
    slope_bins.getD k 0 = -1 + (k : ℚ) / 10 := by
  revert hk
  revert k
  decide

theorem slope_bins_length_eq : slope_bins.length = 20 := by decide

theorem slope_bin_labels_length_eq : slope_bin_labels.length = 19 := by decide

theorem slope_bins_mono :
    ∀ j < slope_bins.length, ∀ i < j, slope_bins.getD i 0 < slope_bins.getD j 0 := by
  decide

/-! ### C10 -/

/-- C10: whenever the nudged gradient `g + 0.0001` is at or above 0.9
(i.e. any raw gradient ≥ 0.8999) or below −1.0, the value falls outside
the bin edges generated by `arange(-1, 1, 0.1)`, `pd.cut` yields a
missing value, and the fill assigns the default bucket "0 → 10%". -/
theorem out_of_range_gradient_default (g : ℚ)
    (h : 9/10 ≤ g + 1/10000 ∨ g + 1/10000 < -1) :
    slopeBinLabel (FVal.fin g) = "0 → 10%" := by
  have hnone : cutLabel slope_bins slope_bin_labels (g + 1/10000) = none := by
    rcases h with h | h
    · apply cutLabel_none_right
      intro u hu
      have hb : ∀ u ∈ slope_bins.tail, u ≤ 9/10 := by decide
      have := hb u hu
      linarith
    · apply cutLabel_none_left
      intro b hb
      have hball : ∀ b ∈ slope_bins, -1 ≤ b := by decide
      have := hball b hb
      linarith
  show (cutLabel slope_bins slope_bin_labels (g + 1/10000)).getD "0 → 10%" = "0 → 10%"
  rw [hnone]
  rfl

/-- C10 witness: the raw gradient 0.9 (nudged to 0.9001) gets the
default bucket. -/
theorem out_of_range_gradient_default_witness :
    slopeBinLabel (FVal.fin (9/10)) = "0 → 10%" :=
  out_of_range_gradient_default (9/10) (Or.inl (by norm_num))

/-! ### C1 -/

theorem slope_bin_index (w : ℚ) (h1 : -1 ≤ w) (h2 : w < 9/10) :
    ∃ k, k < 19 ∧ slope_bins.getD k 0 ≤ w ∧ w < slope_bins.getD (k+1) 0 ∧
      cutLabel slope_bins slope_bin_labels w = some (slope_bin_labels.getD k "") := by
  have hK0 : 0 ≤ ⌊10 * (w + 1)⌋ := Int.floor_nonneg.mpr (by linarith)
  have hK19 : ⌊10 * (w + 1)⌋ < 19 := by
    apply Int.floor_lt.mpr
    push_cast
    linarith
  have hle : ((⌊10 * (w + 1)⌋ : ℤ) : ℚ) ≤ 10 * (w + 1) := Int.floor_le _
  have hlt : 10 * (w + 1) < ((⌊10 * (w + 1)⌋ : ℤ) : ℚ) + 1 := Int.lt_floor_add_one _
  have hkn : (⌊10 * (w + 1)⌋).toNat < 19 := by omega
  have hc : ((⌊10 * (w + 1)⌋.toNat : ℕ) : ℚ) = ((⌊10 * (w + 1)⌋ : ℤ) : ℚ) := by
    exact_mod_cast Int.toNat_of_nonneg hK0
  have hlow : slope_bins.getD (⌊10 * (w + 1)⌋).toNat 0 ≤ w := by
    rw [slope_bins_getD _ (by omega), hc]
    linarith
  have hhigh : w < slope_bins.getD ((⌊10 * (w + 1)⌋).toNat + 1) 0 := by
    rw [slope_bins_getD _ (by omega)]
    push_cast
    rw [hc]
    linarith
  exact ⟨(⌊10 * (w + 1)⌋).toNat, hkn, hlow, hhigh,
    cutLabel_pos slope_bins slope_bin_labels w _
      (by rw [slope_bins_length_eq]; omega)
      (by rw [slope_bins_length_eq, slope_bin_labels_length_eq])
      slope_bins_mono hlow hhigh⟩

/-- C1 (amended): gradients are binned after a +0.0001 nudge into the 19
half-open lower-inclusive 10-percentage-point bins [−100,−90), …,
[80,90) — the edges stop at +90%, not +100% — with a gradient of exactly
0.10 falling in "10 → 20%"; every gradient whose nudged value lies in
[−1, 0.9) is assigned the bin whose lower edge is at or below the nudged
value (nudged values outside that range get the default bucket, see the
C10 theorem). -/
theorem slope_bucket_binning :
    slopeBinLabel (FVal.fin (1/10)) = "10 → 20%" ∧
    slope_bins.length = 20 ∧ slope_bin_labels.length = 19 ∧
    ∀ g : ℚ, -1 ≤ g + 1/10000 → g + 1/10000 < 9/10 →
      ∃ k, k < 19 ∧ slope_bins.getD k 0 ≤ g + 1/10000 ∧
        g + 1/10000 < slope_bins.getD (k+1) 0 ∧
        slopeBinLabel (FVal.fin g) = slope_bin_labels.getD k "" := by
  refine ⟨by decide, by decide, by decide, ?_⟩
  intro g h1 h2
  obtain ⟨k, hk, hl, hh, hcut⟩ := slope_bin_index (g + 1/10000) h1 h2
  refine ⟨k, hk, hl, hh, ?_⟩
  show (cutLabel slope_bins slope_bin_labels (g + 1/10000)).getD "0 → 10%" = _
  rw [hcut]
  rfl

/-- C1 witness: the ∀-part of the theorem evaluated at the boundary
gradient 0.10 — it lands in a bin whose lower edge is at or below the
nudged value. -/
theorem slope_bucket_binning_witness :
    ∃ k, k < 19 ∧ slope_bins.getD k 0 ≤ 1/10 + 1/10000 ∧
      (1:ℚ)/10 + 1/10000 < slope_bins.getD (k+1) 0 ∧
      slopeBinLabel (FVal.fin (1/10)) = slope_bin_labels.getD k "" :=
  slope_bucket_binning.2.2.2 (1/10) (by norm_num) (by norm_num)

/-- C1 counterexample: the claim's top bin [90, 100) does not exist —
its label is not among the generated labels, and a gradient of 0.91
(nudged 0.9101) is assigned the default bucket "0 → 10%" instead of a
"90 → 100%" bucket. -/
theorem slope_bucket_top_bin_cex :
    slopeBinLabel (FVal.fin (91/100)) = "0 → 10%" ∧
    "90 → 100%" ∉ slope_bin_labels := by decide
